import Mathlib

/-!
# project_sibling: dispatch core and response generator

A shallow embedding of `tclient/controller.go` (the polling loop `Controller.Start`,
the update cursor, the registry of per-chat pipes and the worker `chatPipe.routine`)
and of `yagptclient/client.go` (`ClientImpl.GenerateResponse`).

Conventions.
* Go's `int32`/`int64` values are integers; the only `int32` arithmetic of the
  dispatch core is `lastUpdateID + 1` in `getUpdates`, wrapped explicitly.
* The registry `map[ChatID]*chatPipe` is an association list; a pipe is looked up and
  mutated through its key, new pipes are added at the end.
* The goroutines are modelled by an interleaving semantics: every event of `Ev` is
  one atomic action of the Poller, of one worker, or of the environment.  A section
  guarded by the pipe mutex is one action.
* Calls of the external handler `HandleNewMessage` are recorded in a log kept with the
  pipe; a handler is assumed to return.
-/

/-! ## net/http as seen by the two clients -/

/-- A non-nil `*http.Response`: its status code and what `io.ReadAll(resp.Body)` gives. -/
structure HttpResponse where
  StatusCode : Int
  Body : Except String String

/-- The pair `(resp, err)` returned by one call of `client.Do(req)`; on a transport
failure `resp` is nil and `err` is not. -/
structure DoResult where
  resp : Option HttpResponse
  err : Option String

/-- What happens to one request on its way out: the errors of `url.JoinPath`,
`json.Marshal` and `http.NewRequest` (nil when absent). -/
structure RequestBuild where
  joinPathErr : Option String
  marshalErr : Option String
  newRequestErr : Option String

/-- Go's `int32` wrap-around of an integer. -/
def wrapInt32 (i : Int) : Int :=
  (i + 2147483648) % 4294967296 - 2147483648

namespace tclient

/-! ## entities.go -/

abbrev ChatID := Int

structure User where
  ID : Int
  deriving DecidableEq

structure Chat where
  ID : ChatID
  deriving DecidableEq

structure MessageEntity where
  Type_ : String
  Offset : Int
  Length : Int
  deriving DecidableEq

/-- The Go struct `Message`; `ReplyToMessage` is a nullable pointer to a message. -/
inductive Message where
  | mk (From : User) (Chat : Chat) (Text : String) (MessageEntities : List MessageEntity)
      (ReplyToMessage : Option Message) (MessageID : Int)

def Message.From : Message → User
  | .mk f _ _ _ _ _ => f

def Message.Chat : Message → Chat
  | .mk _ c _ _ _ _ => c

def Message.Text : Message → String
  | .mk _ _ t _ _ _ => t

def Message.MessageEntities : Message → List MessageEntity
  | .mk _ _ _ e _ _ => e

def Message.ReplyToMessage : Message → Option Message
  | .mk _ _ _ _ r _ => r

def Message.MessageID : Message → Int
  | .mk _ _ _ _ _ i => i

/-! ## controller.go: data -/

/-- The Go struct `update`: `ID` is an `int32`. -/
structure update where
  ID : Int
  Message : Message

/-- Where the goroutine running `chatPipe.routine` stands. -/
inductive WorkerPC where
  /-- running, about to evaluate the `select` of the loop -/
  | atSelect
  /-- blocked in the `select`: neither `hasData` nor `ctx.Done()` was ready -/
  | parked
  /-- took `case <-p.hasData`, about to run its body -/
  | received
  /-- took `case <-p.ctx.Done()` and returned -/
  | returned
  deriving DecidableEq

/-- One call `p.steward.HandleNewMessage(arg)`: the queue element the loop of
`routine` stood at, the argument passed, and whether `p.mx` was held during the call. -/
structure HandlerCall where
  upd : update
  arg : Message
  mxHeld : Bool

/-- The Go struct `chatPipe`, with the state of its worker goroutine and the log of the
handler calls made by it.  `hasData` is an unbuffered channel (`make(chan struct{})`):
it holds no pending value, only the fact that it was closed. -/
structure chatPipe (σ : Type) where
  steward : σ
  updates : List update
  mxHeld : Bool
  hasDataClosed : Bool
  worker : WorkerPC
  calls : List HandlerCall

/-- The Go struct `Controller`, with the logs of the calls of `stewardFactory` and of
the `go pipe.routine()` statements, and whether `Start` has returned.  `ctxDone` says
whether `ctx` is cancelled; the ticker, the endpoint and the HTTP client are the
environment of `Start` and `getUpdates`. -/
structure Controller (σ : Type) where
  pipes : List (ChatID × chatPipe σ)
  ctxDone : Bool
  stewardFactory : Chat → σ
  lastUpdateID : Int
  factoryCalls : List Chat
  spawned : List ChatID
  startReturned : Bool

/-- The constructor `CreateController`: empty registry, cursor zero. -/
def CreateController {σ : Type} (stewardFactory : Chat → σ) : Controller σ :=
  { pipes := [], ctxDone := false, stewardFactory := stewardFactory, lastUpdateID := 0,
    factoryCalls := [], spawned := [], startReturned := false }

/-! ## The registry -/

/-- The map access `c.pipes[k]`. -/
def lookupPipe {σ : Type} (k : ChatID) : List (ChatID × chatPipe σ) → Option (chatPipe σ)
  | [] => none
  | (k', p) :: rest => if k' = k then some p else lookupPipe k rest

/-- Mutation of the pipe stored under `k` (the registry holds pointers). -/
def modifyPipe {σ : Type} (k : ChatID) (f : chatPipe σ → chatPipe σ) :
    List (ChatID × chatPipe σ) → List (ChatID × chatPipe σ)
  | [] => []
  | (k', p) :: rest => if k' = k then (k', f p) :: rest else (k', p) :: modifyPipe k f rest

/-- The queue of conversation `k`; empty when `k` has no pipe. -/
def queueOf {σ : Type} (k : ChatID) (c : Controller σ) : List update :=
  match lookupPipe k c.pipes with
  | some p => p.updates
  | none => []

/-- The handler calls made so far by the worker of conversation `k`. -/
def callsOf {σ : Type} (k : ChatID) (c : Controller σ) : List HandlerCall :=
  match lookupPipe k c.pipes with
  | some p => p.calls
  | none => []

/-- The updates handled so far by the worker of conversation `k`, in call order. -/
def handledOf {σ : Type} (k : ChatID) (c : Controller σ) : List update :=
  (callsOf k c).map HandlerCall.upd

/-! ## controller.go: the Poller -/

/-- The pipe literal of `Start`: empty queue, fresh mutex, fresh unbuffered channel;
`go pipe.routine()` makes its worker runnable. -/
def newPipe {σ : Type} (s : σ) : chatPipe σ :=
  { steward := s, updates := [], mxHeld := false, hasDataClosed := false,
    worker := WorkerPC.atSelect, calls := [] }

/-- The statements `pipe.mx.Lock(); pipe.updates = append(pipe.updates, upd); pipe.mx.Unlock()`. -/
def appendLocked {σ : Type} (u : update) (p : chatPipe σ) : chatPipe σ :=
  let p1 := { p with mxHeld := true }
  let p2 := { p1 with updates := p1.updates ++ [u] }
  { p2 with mxHeld := false }

/-- The statement `if upd.ID > c.lastUpdateID { c.lastUpdateID = upd.ID }`. -/
def advanceCursor {σ : Type} (c : Controller σ) (u : update) : Controller σ :=
  if u.ID > c.lastUpdateID then { c with lastUpdateID := u.ID } else c

/-- The statements `pipe, ok := c.pipes[chat.ID]; if !ok { ... }`: a missing pipe is built with the
steward made by the factory, stored in the registry, and its worker is started. -/
def ensurePipe {σ : Type} (c : Controller σ) (chat : Chat) : Controller σ :=
  match lookupPipe chat.ID c.pipes with
  | some _ => c
  | none =>
    { c with
      pipes := c.pipes ++ [(chat.ID, newPipe (c.stewardFactory chat))]
      factoryCalls := c.factoryCalls ++ [chat]
      spawned := c.spawned ++ [chat.ID] }

/-- The body of `for _, upd := range updates` up to `pipe.mx.Unlock()`: cursor,
lookup or creation of the pipe, append under the mutex. -/
def enqueue {σ : Type} (c : Controller σ) (u : update) : Controller σ :=
  let c1 := advanceCursor c u
  let c2 := ensurePipe c1 u.Message.Chat
  { c2 with pipes := modifyPipe u.Message.Chat.ID (appendLocked u) c2.pipes }

/-- The non-blocking send `select { case pipe.hasData <- struct{}{}: default: }` on an
unbuffered channel: it succeeds exactly when the worker is blocked in its `select`,
otherwise the `default` branch is taken and nothing is left behind. -/
def trySend {σ : Type} (p : chatPipe σ) : chatPipe σ :=
  if p.worker = WorkerPC.parked then { p with worker := WorkerPC.received } else p

/-- The wake signal sent to the pipe of conversation `k`. -/
def signal {σ : Type} (c : Controller σ) (k : ChatID) : Controller σ :=
  { c with pipes := modifyPipe k trySend c.pipes }

/-- One iteration of `for _, upd := range updates`. -/
def processUpdate {σ : Type} (c : Controller σ) (u : update) : Controller σ :=
  signal (enqueue c u) u.Message.Chat.ID

/-- The loop `for _, upd := range updates`. -/
def processBatch {σ : Type} (c : Controller σ) (batch : List update) : Controller σ :=
  batch.foldl processUpdate c

/-- The `case <-c.ticker.C` branch of `Start`, given what `c.getUpdates()` returned:
on an error the branch is left by `break`. -/
def tick {σ : Type} (c : Controller σ) (fetched : Except String (List update)) :
    Controller σ :=
  match fetched with
  | .error _ => c
  | .ok batch => processBatch c batch

/-- The `case <-c.ctx.Done()` branch of `Start`: close every `hasData`, return. -/
def shutdown {σ : Type} (c : Controller σ) : Controller σ :=
  { c with
    pipes := c.pipes.map (fun kp => (kp.1, { kp.2 with hasDataClosed := true }))
    startReturned := true }

/-- A sequence of ticks of the polling loop. -/
def runTicks {σ : Type} (c : Controller σ) (fetches : List (Except String (List update))) :
    Controller σ :=
  fetches.foldl tick c

/-- The batches of the successful fetches, concatenated. -/
def fetchedItems : List (Except String (List update)) → List update
  | [] => []
  | .error _ :: rest => fetchedItems rest
  | .ok batch :: rest => batch ++ fetchedItems rest

/-! ## controller.go: the gateway calls -/

/-- What the network does to one request of `sendRequest`. -/
structure Transport where
  build : RequestBuild
  doResult : Except String HttpResponse

/-- The function `sendRequest[T]`: every failure is returned as an error, a 200 answer whose body
decodes gives a non-nil pointer to the decoded result. -/
def sendRequest {T : Type} (method : String) (net : Transport)
    (unmarshal : String → Except String T) : Except String (Option T) :=
  match net.build.joinPathErr with
  | some e => .error e
  | none =>
  match net.build.marshalErr with
  | some e => .error e
  | none =>
  match net.build.newRequestErr with
  | some e => .error e
  | none =>
  match net.doResult with
  | .error e => .error e
  | .ok resp =>
  match resp.Body with
  | .error e => .error e
  | .ok body =>
  if resp.StatusCode ≠ 200 then
    .error ("not successful code from telegram API on method " ++ method ++ " (" ++
      toString resp.StatusCode ++ "): " ++ body)
  else
    match unmarshal body with
    | .error e => .error e
    | .ok res => .ok (some res)

/-- The method `Controller.getUpdates`: the request carries `offset = lastUpdateID + 1` (an `int32`
sum); `gateway` is the network's answer as a function of that offset. -/
def getUpdates {σ : Type} (c : Controller σ) (gateway : Int → Transport)
    (unmarshal : String → Except String (List update)) : Except String (List update) :=
  match sendRequest "getUpdates" (gateway (wrapInt32 (c.lastUpdateID + 1))) unmarshal with
  | .error e => .error e
  | .ok none => .error "got nil for updates without an error"
  | .ok (some updates) => .ok updates

/-- Which branch one evaluation of the `select` of `Start` takes. -/
inductive Select where
  /-- the branch `case <-c.ticker.C`, with the gateway of this tick -/
  | ticker (gateway : Int → Transport)
  /-- the branch `case <-c.ctx.Done()` -/
  | ctxDone

/-- The method `Controller.Start` along a sequence of `select` outcomes: a tick fetches and
processes a batch and loops, the cancellation branch closes the wake channels and
returns. -/
def Start {σ : Type} (unmarshal : String → Except String (List update)) :
    Controller σ → List Select → Controller σ
  | c, [] => c
  | c, .ticker gateway :: rest => Start unmarshal (tick c (getUpdates c gateway unmarshal)) rest
  | c, .ctxDone :: _ => shutdown c

/-! ## controller.go: the worker -/

/-- The call `p.steward.HandleNewMessage(update.Message)`, recorded. -/
def handleNewMessage {σ : Type} (p : chatPipe σ) (u : update) : chatPipe σ :=
  { p with calls := p.calls ++ [{ upd := u, arg := u.Message, mxHeld := p.mxHeld }] }

/-- The body of `case <-p.hasData` in `routine`: lock, call the handler on every queued
update, replace the queue by an empty one, unlock. -/
def drainCycle {σ : Type} (p : chatPipe σ) : chatPipe σ :=
  let p1 := { p with mxHeld := true }
  let p2 := p1.updates.foldl handleNewMessage p1
  let p3 := { p2 with updates := [] }
  { p3 with mxHeld := false }

/-- The worker blocks in its `select`: neither case is ready. -/
def routinePark {σ : Type} (ctxDone : Bool) (p : chatPipe σ) : chatPipe σ :=
  if p.worker = WorkerPC.atSelect ∧ p.hasDataClosed = false ∧ ctxDone = false then
    { p with worker := WorkerPC.parked }
  else p

/-- The worker takes `case <-p.hasData` because the channel is closed. -/
def routineRecvClosed {σ : Type} (p : chatPipe σ) : chatPipe σ :=
  if (p.worker = WorkerPC.atSelect ∨ p.worker = WorkerPC.parked) ∧ p.hasDataClosed = true then
    { p with worker := WorkerPC.received }
  else p

/-- The worker runs the body of `case <-p.hasData` and loops. -/
def routineDrain {σ : Type} (p : chatPipe σ) : chatPipe σ :=
  if p.worker = WorkerPC.received then { drainCycle p with worker := WorkerPC.atSelect } else p

/-- The worker takes `case <-p.ctx.Done()` and returns. -/
def routineExit {σ : Type} (ctxDone : Bool) (p : chatPipe σ) : chatPipe σ :=
  if (p.worker = WorkerPC.atSelect ∨ p.worker = WorkerPC.parked) ∧ ctxDone = true then
    { p with worker := WorkerPC.returned }
  else p

/-! ## The interleaving semantics -/

/-- The atomic actions of the Poller, of the workers and of the environment. -/
inductive Ev where
  /-- Poller: the loop body for one update up to `pipe.mx.Unlock()` -/
  | enqueue (u : update)
  /-- Poller: the non-blocking send on the `hasData` of pipe `k` -/
  | signal (k : ChatID)
  /-- environment: `ctx` is cancelled -/
  | cancel
  /-- Poller: the `case <-c.ctx.Done()` branch -/
  | shutdown
  /-- worker of `k`: blocks in `select` -/
  | park (k : ChatID)
  /-- worker of `k`: receives from the closed `hasData` -/
  | recvClosed (k : ChatID)
  /-- worker of `k`: the body of `case <-p.hasData` -/
  | drain (k : ChatID)
  /-- worker of `k`: the `case <-p.ctx.Done()` branch -/
  | exit (k : ChatID)

/-- One action; an action that is not enabled leaves the state as it is. -/
def step {σ : Type} (c : Controller σ) : Ev → Controller σ
  | .enqueue u => if c.startReturned = true then c else enqueue c u
  | .signal k => if c.startReturned = true then c else signal c k
  | .cancel => { c with ctxDone := true }
  | .shutdown => if c.ctxDone = true ∧ c.startReturned = false then shutdown c else c
  | .park k => { c with pipes := modifyPipe k (routinePark c.ctxDone) c.pipes }
  | .recvClosed k => { c with pipes := modifyPipe k routineRecvClosed c.pipes }
  | .drain k => { c with pipes := modifyPipe k routineDrain c.pipes }
  | .exit k => { c with pipes := modifyPipe k (routineExit c.ctxDone) c.pipes }

/-- A schedule: the actions in the order in which they take place. -/
def run {σ : Type} (c : Controller σ) (evs : List Ev) : Controller σ :=
  evs.foldl step c

/-- The updates the Poller is offered along a schedule, in order. -/
def offered : List Ev → List update
  | [] => []
  | .enqueue u :: rest => u :: offered rest
  | _ :: rest => offered rest

/-- The state of the worker of conversation `k`, if it has a pipe. -/
def workerOf {σ : Type} (k : ChatID) (c : Controller σ) : Option WorkerPC :=
  (lookupPipe k c.pipes).map chatPipe.worker

/-! ## Auxiliary definitions of the statements and sample data -/

/-- A message sent by user 1 in the chat `chat`. -/
def sampleMessage (chat : ChatID) (text : String) (messageID : Int) : Message :=
  .mk { ID := 1 } { ID := chat } text [] none messageID

/-- The update `id` carrying a message of the chat `chat`. -/
def sampleUpdate (id : Int) (chat : ChatID) : update :=
  { ID := id, Message := sampleMessage chat "hi" id }

/-- What holds of the registry and of the creation logs in every state the Poller
reaches from `CreateController`. -/
structure RegistryInv {σ : Type} (f : Chat → σ) (items : List update) (c : Controller σ) :
    Prop where
  factory : c.stewardFactory = f
  keys : c.pipes.map Prod.fst = c.spawned
  calls : c.factoryCalls = c.spawned.map Chat.mk
  nodup : c.spawned.Nodup
  seen : ∀ k, k ∈ c.spawned ↔ k ∈ items.map (fun u => u.Message.Chat.ID)
  steward : ∀ k p, lookupPipe k c.pipes = some p → p.steward = f { ID := k }

/-- No error of `url.JoinPath`, `json.Marshal` or `http.NewRequest`. -/
def buildOk : RequestBuild :=
  { joinPathErr := none, marshalErr := none, newRequestErr := none }

/-- A gateway whose `client.Do` fails with a timeout. -/
def failingGateway : Int → Transport :=
  fun _ => { build := buildOk, doResult := .error "context deadline exceeded" }

/-- A gateway that answers 200 with the body `"ok"`. -/
def answeringGateway : Int → Transport :=
  fun _ => { build := buildOk, doResult := .ok { StatusCode := 200, Body := .ok "ok" } }

/-- A decoder that reads every body as the batch `[id=5 chat 10, id=6 chat 10]`. -/
def sampleUnmarshal : String → Except String (List update) :=
  fun _ => .ok [sampleUpdate 5 10, sampleUpdate 6 10]

/-- The updates of a pipe that were handled, followed by those still queued. -/
def passedThrough {σ : Type} (p : chatPipe σ) : List update :=
  p.calls.map HandlerCall.upd ++ p.updates

/-- The Poller's actions for one fetched batch: for every item the enqueue, then the
wake signal to the item's pipe. -/
def pollEvents (batch : List update) : List Ev :=
  batch.flatMap (fun u => [Ev.enqueue u, Ev.signal u.Message.Chat.ID])

/-- Two ticks for chat 10, the second returning a smaller id than the first (an item
already seen), with the worker blocking in between and then draining. -/
def outOfOrderSchedule : List Ev :=
  pollEvents [sampleUpdate 7 10] ++ [Ev.park 10] ++ pollEvents [sampleUpdate 5 10] ++
    [Ev.drain 10]

/-- Two ticks for chats 10 and 20 with increasing ids. -/
def inOrderSchedule : List Ev :=
  pollEvents [sampleUpdate 5 10, sampleUpdate 6 10, sampleUpdate 7 20] ++ [Ev.park 10] ++
    pollEvents [sampleUpdate 8 10] ++ [Ev.drain 10]

/-- The first update of chat 10: the Poller creates the pipe, starts the worker, appends
the update and sends the wake signal before the new worker has reached its `select`;
then the worker blocks. -/
def lostWakeSchedule : List Ev :=
  pollEvents [sampleUpdate 5 10] ++ [Ev.park 10]

/-- The worker has returned: its state and its handler log. -/
def finished {σ : Type} (k : ChatID) (c : Controller σ) (calls : List HandlerCall) : Prop :=
  ∃ p, lookupPipe k c.pipes = some p ∧ p.worker = WorkerPC.returned ∧ p.calls = calls

/-- The actions of the Poller among the actions of a schedule. -/
def Ev.isPoller : Ev → Bool
  | .enqueue _ => true
  | .signal _ => true
  | .shutdown => true
  | _ => false

/-- One tick on the batch `[5, 6, 7]` of chat 10 with the worker of chat 10 acting in
between: it blocks after the first item and, woken by the signal of the second, runs a
drain cycle before the third item is appended. -/
def interleavedTick : List Ev :=
  [Ev.enqueue (sampleUpdate 5 10), Ev.signal 10, Ev.park 10,
    Ev.enqueue (sampleUpdate 6 10), Ev.signal 10, Ev.drain 10,
    Ev.enqueue (sampleUpdate 7 10), Ev.signal 10]

/-- Three ticks: chats 10 and 20 with increasing ids, then chat 10 again with an id seen
before and a smaller one, the worker of chat 10 draining after the second tick. -/
def mixedSchedule : List Ev :=
  pollEvents [sampleUpdate 5 10, sampleUpdate 6 10, sampleUpdate 7 20] ++ [Ev.park 10] ++
    pollEvents [sampleUpdate 8 10] ++ [Ev.drain 10, Ev.cancel] ++
    pollEvents [sampleUpdate 6 10, sampleUpdate 4 10]

/-- One update queued for chat 10 whose wake signal found the worker not yet blocked,
then the cancellation of the context. -/
def cancelledSchedule : List Ev :=
  pollEvents [sampleUpdate 5 10] ++ [Ev.cancel]

end tclient

namespace yagptclient

/-! ## client.go -/

structure MessageT where
  Role : String
  Text : String

/-- The Go struct `GenerationResponse`: `Alternatives` lists the `Message` of every
element of `Result.Alternatives`. -/
structure GenerationResponse where
  Alternatives : List MessageT

/-- How a call of `GenerateResponse` ends: it returns `(text, err)`, or it panics. -/
inductive Outcome where
  | returned (text : String) (err : Option String)
  | panicked (what : String)

/-- The loop `for { if resp.StatusCode == 429 { sleep } else { break }; resp, err =
client.Do(req) }`, started on the result of the first `client.Do(req)`; `later` are the
results of the calls that follow.  `resp.StatusCode` on a nil `resp` panics.  The result
is `none` when `later` is used up and the loop still runs. -/
def awaitNotThrottled : DoResult → List DoResult → Option (Except String DoResult)
  | d, later =>
    match d.resp with
    | none => some (.error "invalid memory address or nil pointer dereference")
    | some r =>
      if r.StatusCode = 429 then
        match later with
        | [] => none
        | d' :: later' => awaitNotThrottled d' later'
      else some (.ok d)

/-- The method `ClientImpl.GenerateResponse`: `first` and `later` are the results of the successive
calls of `client.Do(req)`. -/
def GenerateResponse (build : RequestBuild) (unmarshal : String → Except String GenerationResponse)
    (first : DoResult) (later : List DoResult) : Option Outcome :=
  match build.joinPathErr with
  | some e => some (.returned "" (some e))
  | none =>
  match build.marshalErr with
  | some e => some (.returned "" (some e))
  | none =>
  match build.newRequestErr with
  | some e => some (.returned "" (some e))
  | none =>
  match awaitNotThrottled first later with
  | none => none
  | some (.error what) => some (.panicked what)
  | some (.ok d) =>
  match d.err with
  | some e => some (.returned "" (some e))
  | none =>
  match d.resp with
  | none => some (.panicked "invalid memory address or nil pointer dereference")
  | some resp =>
  match resp.Body with
  | .error e => some (.returned "" (some e))
  | .ok body =>
  if resp.StatusCode ≠ 200 then
    some (.returned "" (some ("failed to translate (" ++ toString resp.StatusCode ++ "): " ++ body)))
  else
    match unmarshal body with
    | .error e => some (.returned "" (some e))
    | .ok respParsed =>
      match respParsed.Alternatives with
      | [] => some (.returned "" (some "zero alternatives"))
      | alt :: _ => some (.returned alt.Text none)

/-! ## Auxiliary definitions of the statements and sample data -/

/-- No error of `url.JoinPath`, `json.Marshal` or `http.NewRequest`. -/
def buildOk : RequestBuild :=
  { joinPathErr := none, marshalErr := none, newRequestErr := none }

/-- A decoder that reads every body as one alternative with the text `"reply"`. -/
def sampleUnmarshal : String → Except String GenerationResponse :=
  fun _ => .ok { Alternatives := [{ Role := "assistant", Text := "reply" }] }

/-- The transport failure of `client.Do`: nil response, non-nil error. -/
def transportFailure : DoResult :=
  { resp := none, err := some "dial tcp: i/o timeout" }

end yagptclient


namespace tclient

/-! ## The cursor -/

theorem advanceCursor_lastUpdateID {σ : Type} (c : Controller σ) (u : update) :
    (advanceCursor c u).lastUpdateID = max c.lastUpdateID u.ID := by
  unfold advanceCursor
  by_cases h : u.ID > c.lastUpdateID
  · simp only [h, if_true]
    rw [max_eq_right (le_of_lt h)]
  · simp only [h, if_false]
    rw [max_eq_left (not_lt.mp h)]

theorem advanceCursor_pipes {σ : Type} (c : Controller σ) (u : update) :
    (advanceCursor c u).pipes = c.pipes := by
  unfold advanceCursor; split <;> rfl

theorem advanceCursor_stewardFactory {σ : Type} (c : Controller σ) (u : update) :
    (advanceCursor c u).stewardFactory = c.stewardFactory := by
  unfold advanceCursor; split <;> rfl

theorem ensurePipe_lastUpdateID {σ : Type} (c : Controller σ) (chat : Chat) :
    (ensurePipe c chat).lastUpdateID = c.lastUpdateID := by
  unfold ensurePipe; split <;> rfl

theorem enqueue_lastUpdateID {σ : Type} (c : Controller σ) (u : update) :
    (enqueue c u).lastUpdateID = max c.lastUpdateID u.ID := by
  show (ensurePipe (advanceCursor c u) u.Message.Chat).lastUpdateID = _
  rw [ensurePipe_lastUpdateID, advanceCursor_lastUpdateID]

theorem processUpdate_lastUpdateID {σ : Type} (c : Controller σ) (u : update) :
    (processUpdate c u).lastUpdateID = max c.lastUpdateID u.ID := by
  show (enqueue c u).lastUpdateID = _
  exact enqueue_lastUpdateID c u

theorem processBatch_lastUpdateID {σ : Type} (batch : List update) (c : Controller σ) :
    (processBatch c batch).lastUpdateID =
      batch.foldl (fun m u => max m u.ID) c.lastUpdateID := by
  induction batch generalizing c with
  | nil => rfl
  | cons u rest ih =>
    show (processBatch (processUpdate c u) rest).lastUpdateID = _
    rw [ih, processUpdate_lastUpdateID]
    rfl

/-- A left fold of `max` over the ids is the maximum of the start value and the ids. -/
theorem foldl_max_spec (batch : List update) (m : Int) :
    m ≤ batch.foldl (fun m u => max m u.ID) m ∧
    (∀ u ∈ batch, u.ID ≤ batch.foldl (fun m u => max m u.ID) m) ∧
    (batch.foldl (fun m u => max m u.ID) m = m ∨
      ∃ u ∈ batch, batch.foldl (fun m u => max m u.ID) m = u.ID) := by
  induction batch generalizing m with
  | nil => simp
  | cons v rest ih =>
    obtain ⟨h1, h2, h3⟩ := ih (max m v.ID)
    simp only [List.foldl_cons, List.mem_cons, forall_eq_or_imp, exists_eq_or_imp]
    refine ⟨le_trans (le_max_left _ _) h1, ⟨le_trans (le_max_right _ _) h1, h2⟩, ?_⟩
    rcases h3 with h | ⟨w, hw, h⟩
    · rcases le_total m v.ID with hm | hm
      · right; left; rw [h, max_eq_right hm]
      · left; rw [h, max_eq_left hm]
    · right; right; exact ⟨w, hw, h⟩

theorem processBatch_append {σ : Type} (c : Controller σ) (b₁ b₂ : List update) :
    processBatch c (b₁ ++ b₂) = processBatch (processBatch c b₁) b₂ := by
  unfold processBatch
  rw [List.foldl_append]

/-- A sequence of ticks processes the concatenation of the fetched batches. -/
theorem runTicks_eq_processBatch {σ : Type} (fetches : List (Except String (List update)))
    (c : Controller σ) : runTicks c fetches = processBatch c (fetchedItems fetches) := by
  induction fetches generalizing c with
  | nil => rfl
  | cons f rest ih =>
    cases f with
    | error e => exact ih c
    | ok batch =>
      show runTicks (processBatch c batch) rest = _
      rw [ih, fetchedItems, processBatch_append]

/-- C1: after a tick has processed a fetched batch, the cursor is the maximum of the
previous cursor and the update ids of the batch (it is an upper bound of all of them and
it is one of them); so it never decreases, and after any sequence of ticks it is the
maximum of the starting cursor and the ids of all items fetched so far: the largest
fetched id as soon as one fetched id reaches the starting cursor. -/
theorem cursor_is_running_maximum {σ : Type} (c : Controller σ) (batch : List update)
    (fetches : List (Except String (List update))) :
    (c.lastUpdateID ≤ (tick c (.ok batch)).lastUpdateID ∧
      (∀ u ∈ batch, u.ID ≤ (tick c (.ok batch)).lastUpdateID) ∧
      ((tick c (.ok batch)).lastUpdateID = c.lastUpdateID ∨
        ∃ u ∈ batch, (tick c (.ok batch)).lastUpdateID = u.ID)) ∧
    (c.lastUpdateID ≤ (runTicks c fetches).lastUpdateID ∧
      (∀ u ∈ fetchedItems fetches, u.ID ≤ (runTicks c fetches).lastUpdateID) ∧
      ((runTicks c fetches).lastUpdateID = c.lastUpdateID ∨
        ∃ u ∈ fetchedItems fetches, (runTicks c fetches).lastUpdateID = u.ID) ∧
      ((∃ u ∈ fetchedItems fetches, c.lastUpdateID ≤ u.ID) →
        ∃ u ∈ fetchedItems fetches, (runTicks c fetches).lastUpdateID = u.ID)) := by
  constructor
  · show _ ≤ (processBatch c batch).lastUpdateID ∧ _
    simp only [tick, processBatch_lastUpdateID]
    exact foldl_max_spec batch c.lastUpdateID
  · rw [runTicks_eq_processBatch, processBatch_lastUpdateID]
    obtain ⟨h₁, h₂, h₃⟩ := foldl_max_spec (fetchedItems fetches) c.lastUpdateID
    refine ⟨h₁, h₂, h₃, ?_⟩
    rintro ⟨u, hu, hle⟩
    rcases h₃ with h | h
    · exact ⟨u, hu, le_antisymm (by rw [h]; exact hle) (h₂ u hu)⟩
    · exact h

/-! ## The registry under the Poller's actions -/

theorem lookupPipe_modifyPipe {σ : Type} (k k' : ChatID) (f : chatPipe σ → chatPipe σ)
    (l : List (ChatID × chatPipe σ)) :
    lookupPipe k (modifyPipe k' f l) =
      if k' = k then (lookupPipe k l).map f else lookupPipe k l := by
  induction l with
  | nil => simp [modifyPipe, lookupPipe]
  | cons kp rest ih =>
    obtain ⟨k₀, p⟩ := kp
    by_cases h₀ : k₀ = k' <;> by_cases h : k' = k <;> by_cases h₁ : k₀ = k <;>
      simp_all [modifyPipe, lookupPipe]

theorem lookupPipe_append {σ : Type} (k k' : ChatID) (q : chatPipe σ)
    (l : List (ChatID × chatPipe σ)) :
    lookupPipe k (l ++ [(k', q)]) =
      match lookupPipe k l with
      | some p => some p
      | none => if k' = k then some q else none := by
  induction l with
  | nil => simp [lookupPipe]
  | cons kp rest ih =>
    obtain ⟨k₀, p⟩ := kp
    by_cases h₁ : k₀ = k <;> simp_all [lookupPipe]

/-- The pipe found under `k` after the Poller has enqueued `u`: the pipe of `u`'s chat
is the old one (a new one if there was none) with `u` appended, every other pipe is
untouched. -/
theorem lookupPipe_enqueue {σ : Type} (k : ChatID) (c : Controller σ) (u : update) :
    lookupPipe k (enqueue c u).pipes =
      if u.Message.Chat.ID = k then
        some (appendLocked u
          ((lookupPipe k c.pipes).getD (newPipe (c.stewardFactory u.Message.Chat))))
      else lookupPipe k c.pipes := by
  show lookupPipe k (modifyPipe u.Message.Chat.ID (appendLocked u)
    (ensurePipe (advanceCursor c u) u.Message.Chat).pipes) = _
  rw [lookupPipe_modifyPipe]
  unfold ensurePipe
  rw [advanceCursor_pipes, advanceCursor_stewardFactory]
  by_cases hk : u.Message.Chat.ID = k
  · subst hk
    cases hl : lookupPipe u.Message.Chat.ID c.pipes with
    | some p => simp [hl, advanceCursor_pipes]
    | none => simp [hl, lookupPipe_append]
  · cases hl : lookupPipe u.Message.Chat.ID c.pipes with
    | some p => simp [hk, advanceCursor_pipes]
    | none =>
      simp only [hk, if_false, lookupPipe_append]
      cases lookupPipe k c.pipes <;> simp

theorem lookupPipe_signal {σ : Type} (k k' : ChatID) (c : Controller σ) :
    lookupPipe k (signal c k').pipes =
      if k' = k then (lookupPipe k c.pipes).map trySend else lookupPipe k c.pipes :=
  lookupPipe_modifyPipe k k' trySend c.pipes

theorem trySend_updates {σ : Type} (p : chatPipe σ) : (trySend p).updates = p.updates := by
  unfold trySend; split <;> rfl

theorem trySend_steward {σ : Type} (p : chatPipe σ) : (trySend p).steward = p.steward := by
  unfold trySend; split <;> rfl

theorem trySend_calls {σ : Type} (p : chatPipe σ) : (trySend p).calls = p.calls := by
  unfold trySend; split <;> rfl

/-- The pipe found under `k` after one iteration of the Poller's loop. -/
theorem lookupPipe_processUpdate {σ : Type} (k : ChatID) (c : Controller σ) (u : update) :
    lookupPipe k (processUpdate c u).pipes =
      if u.Message.Chat.ID = k then
        some (trySend (appendLocked u
          ((lookupPipe k c.pipes).getD (newPipe (c.stewardFactory u.Message.Chat)))))
      else lookupPipe k c.pipes := by
  unfold processUpdate
  rw [lookupPipe_signal, lookupPipe_enqueue]
  by_cases hk : u.Message.Chat.ID = k <;> simp [hk]

theorem queueOf_processUpdate {σ : Type} (k : ChatID) (c : Controller σ) (u : update) :
    queueOf k (processUpdate c u) =
      queueOf k c ++ (if u.Message.Chat.ID = k then [u] else []) := by
  unfold queueOf
  rw [lookupPipe_processUpdate]
  by_cases hk : u.Message.Chat.ID = k
  · simp only [hk, if_true, trySend_updates]
    cases lookupPipe k c.pipes <;> simp [appendLocked, newPipe]
  · simp [hk]

theorem queueOf_processBatch {σ : Type} (k : ChatID) (batch : List update) (c : Controller σ) :
    queueOf k (processBatch c batch) =
      queueOf k c ++ batch.filter (fun u => u.Message.Chat.ID = k) := by
  induction batch generalizing c with
  | nil => simp [processBatch]
  | cons u rest ih =>
    show queueOf k (processBatch (processUpdate c u) rest) = _
    rw [ih, queueOf_processUpdate, List.filter_cons]
    by_cases hk : u.Message.Chat.ID = k <;> simp [hk]

/-- The scenario of the specification, on the schedule in which no worker acts during
the tick: the batch `[id=5 chat 10, id=6 chat 10, id=7 chat 20]` on the empty registry
gives chat 10 the queue `[5, 6]` and chat 20 the queue `[7]`. -/
theorem tick_scenario_example :
    (queueOf 10 (tick (CreateController (fun _ => ()))
        (.ok [sampleUpdate 5 10, sampleUpdate 6 10, sampleUpdate 7 20]))).map update.ID =
      [5, 6] ∧
    (queueOf 20 (tick (CreateController (fun _ => ()))
        (.ok [sampleUpdate 5 10, sampleUpdate 6 10, sampleUpdate 7 20]))).map update.ID =
      [7] := by
  constructor <;> rfl


/-! ## The drain cycle of the worker -/

theorem foldl_handleNewMessage {σ : Type} (q : List update) (p : chatPipe σ) :
    q.foldl handleNewMessage p =
      { p with calls := p.calls ++
          q.map (fun u => { upd := u, arg := u.Message, mxHeld := p.mxHeld }) } := by
  induction q generalizing p with
  | nil => simp
  | cons u rest ih =>
    rw [List.foldl_cons, ih]
    simp [handleNewMessage]

/-- The drain cycle in closed form. -/
theorem drainCycle_eq {σ : Type} (p : chatPipe σ) :
    drainCycle p =
      { p with
        updates := []
        mxHeld := false
        calls := p.calls ++
          p.updates.map (fun u => { upd := u, arg := u.Message, mxHeld := true }) } := by
  unfold drainCycle
  simp only [foldl_handleNewMessage]

/-- C3: one drain cycle of `routine` on a queue of `K ≥ 0` items calls
`HandleNewMessage` once per queued item, on that item's `Message`, in queue order
(so `K` calls), and leaves the queue empty with the steward unchanged; a worker that
received one wake-up runs this one cycle and is back at its `select`, where a further
cycle needs a further wake-up. -/
theorem drain_cycle_handles_whole_queue {σ : Type} (p : chatPipe σ) :
    (drainCycle p).calls.map HandlerCall.arg =
        p.calls.map HandlerCall.arg ++ p.updates.map update.Message ∧
    (drainCycle p).calls.map HandlerCall.upd = p.calls.map HandlerCall.upd ++ p.updates ∧
    (drainCycle p).calls.length = p.calls.length + p.updates.length ∧
    (drainCycle p).updates = [] ∧
    (drainCycle p).steward = p.steward ∧
    routineDrain { p with worker := WorkerPC.received } =
        { drainCycle p with worker := WorkerPC.atSelect } ∧
    routineDrain { drainCycle p with worker := WorkerPC.atSelect } =
        { drainCycle p with worker := WorkerPC.atSelect } := by
  refine ⟨?_, ?_, ?_, ?_, ?_, ?_, ?_⟩
  · rw [drainCycle_eq]; simp [Function.comp_def]
  · rw [drainCycle_eq]; simp [Function.comp_def]
  · rw [drainCycle_eq]; simp
  · rw [drainCycle_eq]
  · rw [drainCycle_eq]
  · simp [routineDrain, drainCycle_eq]
  · simp [routineDrain]

/-- C9, as stated, fails: the drain cycle of a pipe whose queue holds one update calls
the handler while `p.mx` is held. -/
theorem handler_runs_under_mutex_example :
    ¬ (∀ call ∈ (drainCycle (appendLocked (sampleUpdate 5 10) (newPipe ()))).calls,
        call.mxHeld = false) := by
  simp [drainCycle, handleNewMessage, appendLocked, newPipe]

/-- C9, amended: in every drain cycle of `routine` the mutex is taken before the first
handler call and every `HandleNewMessage` call of the cycle runs with `p.mx` held; the
queue is replaced by the empty one after the last call, and only then is the mutex
released. -/
theorem drain_cycle_holds_mutex {σ : Type} (p : chatPipe σ) :
    (drainCycle p).calls =
        p.calls ++ p.updates.map (fun u => { upd := u, arg := u.Message, mxHeld := true }) ∧
    (∀ call ∈ (drainCycle p).calls.drop p.calls.length, call.mxHeld = true) ∧
    (drainCycle p).updates = [] ∧
    (drainCycle p).mxHeld = false := by
  rw [drainCycle_eq]
  refine ⟨rfl, ?_, rfl, rfl⟩
  simp


/-! ## Pipes, stewards and workers are created once per conversation -/

theorem modifyPipe_keys {σ : Type} (k : ChatID) (f : chatPipe σ → chatPipe σ)
    (l : List (ChatID × chatPipe σ)) : (modifyPipe k f l).map Prod.fst = l.map Prod.fst := by
  induction l with
  | nil => rfl
  | cons kp rest ih =>
    obtain ⟨k₀, p⟩ := kp
    by_cases h : k₀ = k <;> simp [modifyPipe, h, ih]

theorem lookupPipe_eq_none_iff {σ : Type} (k : ChatID) (l : List (ChatID × chatPipe σ)) :
    lookupPipe k l = none ↔ k ∉ l.map Prod.fst := by
  induction l with
  | nil => simp [lookupPipe]
  | cons kp rest ih =>
    obtain ⟨k₀, p⟩ := kp
    by_cases h : k₀ = k
    · simp [lookupPipe, h]
    · simp [lookupPipe, h, ih, Ne.symm h]

theorem ensurePipe_keys {σ : Type} (c : Controller σ) (chat : Chat) :
    (ensurePipe c chat).pipes.map Prod.fst =
      if chat.ID ∈ c.pipes.map Prod.fst then c.pipes.map Prod.fst
      else c.pipes.map Prod.fst ++ [chat.ID] := by
  unfold ensurePipe
  cases h : lookupPipe chat.ID c.pipes with
  | some p =>
    have hm : chat.ID ∈ c.pipes.map Prod.fst := by
      by_contra hn
      rw [(lookupPipe_eq_none_iff _ _).mpr hn] at h
      cases h
    simp only [hm, if_true]
  | none =>
    have hm := (lookupPipe_eq_none_iff _ _).mp h
    simp only [hm, if_false, List.map_append, List.map_cons, List.map_nil]

theorem ensurePipe_spawned {σ : Type} (c : Controller σ) (chat : Chat) :
    (ensurePipe c chat).spawned =
      if chat.ID ∈ c.pipes.map Prod.fst then c.spawned else c.spawned ++ [chat.ID] := by
  unfold ensurePipe
  cases h : lookupPipe chat.ID c.pipes with
  | some p =>
    have hm : chat.ID ∈ c.pipes.map Prod.fst := by
      by_contra hn
      rw [(lookupPipe_eq_none_iff _ _).mpr hn] at h
      cases h
    simp only [hm, if_true]
  | none =>
    have hm := (lookupPipe_eq_none_iff _ _).mp h
    simp only [hm, if_false]

theorem ensurePipe_factoryCalls {σ : Type} (c : Controller σ) (chat : Chat) :
    (ensurePipe c chat).factoryCalls =
      if chat.ID ∈ c.pipes.map Prod.fst then c.factoryCalls else c.factoryCalls ++ [chat] := by
  unfold ensurePipe
  cases h : lookupPipe chat.ID c.pipes with
  | some p =>
    have hm : chat.ID ∈ c.pipes.map Prod.fst := by
      by_contra hn
      rw [(lookupPipe_eq_none_iff _ _).mpr hn] at h
      cases h
    simp only [hm, if_true]
  | none =>
    have hm := (lookupPipe_eq_none_iff _ _).mp h
    simp only [hm, if_false]

theorem advanceCursor_spawned {σ : Type} (c : Controller σ) (u : update) :
    (advanceCursor c u).spawned = c.spawned := by
  unfold advanceCursor; split <;> rfl

theorem advanceCursor_factoryCalls {σ : Type} (c : Controller σ) (u : update) :
    (advanceCursor c u).factoryCalls = c.factoryCalls := by
  unfold advanceCursor; split <;> rfl

theorem ensurePipe_stewardFactory {σ : Type} (c : Controller σ) (chat : Chat) :
    (ensurePipe c chat).stewardFactory = c.stewardFactory := by
  unfold ensurePipe; split <;> rfl

theorem processUpdate_stewardFactory {σ : Type} (c : Controller σ) (u : update) :
    (processUpdate c u).stewardFactory = c.stewardFactory := by
  show (ensurePipe (advanceCursor c u) u.Message.Chat).stewardFactory = _
  rw [ensurePipe_stewardFactory, advanceCursor_stewardFactory]

theorem processUpdate_keys {σ : Type} (c : Controller σ) (u : update) :
    (processUpdate c u).pipes.map Prod.fst =
      if u.Message.Chat.ID ∈ c.pipes.map Prod.fst then c.pipes.map Prod.fst
      else c.pipes.map Prod.fst ++ [u.Message.Chat.ID] := by
  show (modifyPipe _ trySend (modifyPipe _ (appendLocked u)
    (ensurePipe (advanceCursor c u) u.Message.Chat).pipes)).map Prod.fst = _
  rw [modifyPipe_keys, modifyPipe_keys, ensurePipe_keys, advanceCursor_pipes]

theorem processUpdate_spawned {σ : Type} (c : Controller σ) (u : update) :
    (processUpdate c u).spawned =
      if u.Message.Chat.ID ∈ c.pipes.map Prod.fst then c.spawned
      else c.spawned ++ [u.Message.Chat.ID] := by
  show (ensurePipe (advanceCursor c u) u.Message.Chat).spawned = _
  rw [ensurePipe_spawned, advanceCursor_pipes, advanceCursor_spawned]

theorem processUpdate_factoryCalls {σ : Type} (c : Controller σ) (u : update) :
    (processUpdate c u).factoryCalls =
      if u.Message.Chat.ID ∈ c.pipes.map Prod.fst then c.factoryCalls
      else c.factoryCalls ++ [u.Message.Chat] := by
  show (ensurePipe (advanceCursor c u) u.Message.Chat).factoryCalls = _
  rw [ensurePipe_factoryCalls, advanceCursor_pipes, advanceCursor_factoryCalls]

theorem RegistryInv.init {σ : Type} (f : Chat → σ) : RegistryInv f [] (CreateController f) :=
  { factory := rfl, keys := rfl, calls := rfl, nodup := List.nodup_nil,
    seen := by intro k; simp [CreateController],
    steward := by intro k p h; simp [CreateController, lookupPipe] at h }

theorem RegistryInv.processUpdate {σ : Type} {f : Chat → σ} {items : List update}
    {c : Controller σ} (h : RegistryInv f items c) (u : update) :
    RegistryInv f (items ++ [u]) (processUpdate c u) := by
  obtain ⟨hf, hk, hc, hn, hs, hst⟩ := h
  refine ⟨?_, ?_, ?_, ?_, ?_, ?_⟩
  · rw [processUpdate_stewardFactory, hf]
  · rw [processUpdate_keys, processUpdate_spawned, hk]
  · rw [processUpdate_factoryCalls, processUpdate_spawned, hk, hc]
    split
    · rfl
    · simp
  · rw [processUpdate_spawned, hk]
    split
    · exact hn
    · rename_i hm
      exact List.Nodup.append hn (List.nodup_singleton _) (by simpa using hm)
  · intro k
    rw [processUpdate_spawned, hk]
    by_cases hm : u.Message.Chat.ID ∈ c.spawned
    · simp only [hm, if_true, List.map_append, List.mem_append, hs, List.map_cons,
        List.map_nil, List.mem_singleton]
      constructor
      · exact Or.inl
      · rintro (h | h)
        · exact h
        · rw [h]; exact (hs _).mp hm
    · simp only [hm, if_false, List.map_append, List.mem_append, hs, List.map_cons,
        List.map_nil, List.mem_singleton]
  · intro k p hl
    rw [lookupPipe_processUpdate] at hl
    by_cases hku : u.Message.Chat.ID = k
    · simp only [hku, if_true, Option.some.injEq] at hl
      rw [← hl, trySend_steward]
      cases hq : lookupPipe k c.pipes with
      | some q =>
        simp only [hq, Option.getD_some, appendLocked]
        exact hst k q hq
      | none =>
        simp only [hq, Option.getD_none, appendLocked, newPipe, hf]
        rw [← hku]
    · simp only [hku, if_false] at hl
      exact hst k p hl

theorem RegistryInv.processBatch {σ : Type} {f : Chat → σ} (batch : List update) :
    ∀ {items : List update} {c : Controller σ}, RegistryInv f items c →
      RegistryInv f (items ++ batch) (processBatch c batch) := by
  induction batch with
  | nil => intro items c h; simpa [tclient.processBatch] using h
  | cons u rest ih =>
    intro items c h
    have h' := ih (h.processUpdate u)
    rw [List.append_assoc] at h'
    exact h'

theorem RegistryInv.runTicks {σ : Type} (f : Chat → σ)
    (fetches : List (Except String (List update))) :
    RegistryInv f (fetchedItems fetches) (runTicks (CreateController f) fetches) := by
  rw [runTicks_eq_processBatch]
  simpa using (RegistryInv.init f).processBatch (fetchedItems fetches)


theorem steward_kept_processUpdate {σ : Type} (c : Controller σ) (u : update) (k : ChatID)
    (p : chatPipe σ) (h : lookupPipe k c.pipes = some p) :
    ∃ p', lookupPipe k (processUpdate c u).pipes = some p' ∧ p'.steward = p.steward := by
  rw [lookupPipe_processUpdate]
  by_cases hk : u.Message.Chat.ID = k
  · rw [if_pos hk]
    refine ⟨_, rfl, ?_⟩
    rw [trySend_steward, h]
    rfl
  · rw [if_neg hk]
    exact ⟨p, h, rfl⟩

theorem steward_kept_processBatch {σ : Type} (batch : List update) (c : Controller σ)
    (k : ChatID) (p : chatPipe σ) (h : lookupPipe k c.pipes = some p) :
    ∃ p', lookupPipe k (processBatch c batch).pipes = some p' ∧ p'.steward = p.steward := by
  induction batch generalizing c p with
  | nil => exact ⟨p, h, rfl⟩
  | cons u rest ih =>
    obtain ⟨p₁, h₁, hs₁⟩ := steward_kept_processUpdate c u k p h
    obtain ⟨p₂, h₂, hs₂⟩ := ih (processUpdate c u) p₁ h₁
    exact ⟨p₂, h₂, hs₂.trans hs₁⟩

theorem spawned_prefix_processBatch {σ : Type} (batch : List update) (c : Controller σ) :
    c.spawned <+: (processBatch c batch).spawned := by
  induction batch generalizing c with
  | nil => exact List.prefix_refl _
  | cons u rest ih =>
    refine List.IsPrefix.trans ?_ (ih (processUpdate c u))
    rw [processUpdate_spawned]
    split
    · exact List.prefix_refl _
    · exact List.prefix_append _ _

/-- C5: in every state reached from `CreateController` by a sequence of ticks, the log of
started workers holds each conversation key that occurs in the fetched items exactly
once and no other key; the steward factory was called exactly for these keys, in the same
order, and the registry holds exactly these keys, each with the steward the factory
made for it.  Processing one more item starts a worker only if the item's key has none
yet (so only on the first item of a key), and further ticks keep every started worker
and every registered pipe with its steward. -/
theorem one_worker_per_conversation {σ : Type} (f : Chat → σ)
    (fetches more : List (Except String (List update))) (k : ChatID) (u : update) :
    (runTicks (CreateController f) fetches).spawned.count k =
        (if k ∈ (fetchedItems fetches).map (fun v => v.Message.Chat.ID) then 1 else 0) ∧
    (runTicks (CreateController f) fetches).factoryCalls =
        (runTicks (CreateController f) fetches).spawned.map Chat.mk ∧
    (runTicks (CreateController f) fetches).pipes.map Prod.fst =
        (runTicks (CreateController f) fetches).spawned ∧
    (∀ p, lookupPipe k (runTicks (CreateController f) fetches).pipes = some p →
        p.steward = f { ID := k }) ∧
    (processUpdate (runTicks (CreateController f) fetches) u).spawned =
        (if u.Message.Chat.ID ∈ (runTicks (CreateController f) fetches).spawned then
          (runTicks (CreateController f) fetches).spawned
        else (runTicks (CreateController f) fetches).spawned ++ [u.Message.Chat.ID]) ∧
    (runTicks (CreateController f) fetches).spawned <+:
        (runTicks (runTicks (CreateController f) fetches) more).spawned ∧
    (∀ p, lookupPipe k (runTicks (CreateController f) fetches).pipes = some p →
        ∃ p', lookupPipe k (runTicks (runTicks (CreateController f) fetches) more).pipes =
            some p' ∧ p'.steward = p.steward) := by
  have inv := RegistryInv.runTicks f fetches
  refine ⟨?_, inv.calls, inv.keys, fun p hp => inv.steward k p hp, ?_, ?_, ?_⟩
  · by_cases hk : k ∈ (fetchedItems fetches).map (fun v => v.Message.Chat.ID)
    · simp only [hk, if_true]
      exact List.count_eq_one_of_mem inv.nodup ((inv.seen k).mpr hk)
    · simp only [hk, if_false]
      exact List.count_eq_zero_of_not_mem (fun hm => hk ((inv.seen k).mp hm))
  · rw [processUpdate_spawned, inv.keys]
  · rw [runTicks_eq_processBatch _ (runTicks (CreateController f) fetches)]
    exact spawned_prefix_processBatch _ _
  · intro p hp
    rw [runTicks_eq_processBatch _ (runTicks (CreateController f) fetches)]
    exact steward_kept_processBatch _ _ k p hp


/-! ## A failed fetch -/

/-- The failures named by the gateway contract make `getUpdates` return an error: a
transport error of `client.Do`, a status other than 200, a body that does not decode. -/
theorem getUpdates_error_of_failure {σ : Type} (c : Controller σ) (gateway : Int → Transport)
    (unmarshal : String → Except String (List update))
    (hb : (gateway (wrapInt32 (c.lastUpdateID + 1))).build = buildOk)
    (h : (∃ e, (gateway (wrapInt32 (c.lastUpdateID + 1))).doResult = .error e) ∨
      (∃ status body, status ≠ 200 ∧ (gateway (wrapInt32 (c.lastUpdateID + 1))).doResult =
        .ok { StatusCode := status, Body := .ok body }) ∨
      (∃ body e, unmarshal body = .error e ∧
        (gateway (wrapInt32 (c.lastUpdateID + 1))).doResult =
          .ok { StatusCode := 200, Body := .ok body })) :
    ∃ e, getUpdates c gateway unmarshal = .error e := by
  unfold getUpdates sendRequest
  rw [hb]
  rcases h with ⟨e, h⟩ | ⟨status, body, hs, h⟩ | ⟨body, e, hu, h⟩
  · exact ⟨e, by simp [buildOk, h]⟩
  · exact ⟨_, by simp [buildOk, h, hs]; rfl⟩
  · exact ⟨e, by simp [buildOk, h, hu]⟩

/-- C6: when `getUpdates` returns an error the tick leaves the whole state as it was
(cursor, registry, queues, creation logs and handler logs), and `Start` goes on with
the next `select`; so a run whose first fetch fails ends in the same state as the run
without that fetch. -/
theorem failed_fetch_changes_nothing {σ : Type} (unmarshal : String → Except String (List update))
    (c : Controller σ) (gateway : Int → Transport) (rest : List Select)
    (h : ∃ e, getUpdates c gateway unmarshal = .error e) :
    tick c (getUpdates c gateway unmarshal) = c ∧
    Start unmarshal c (.ticker gateway :: rest) = Start unmarshal c rest := by
  obtain ⟨e, he⟩ := h
  have ht : tick c (getUpdates c gateway unmarshal) = c := by rw [he]; rfl
  exact ⟨ht, by rw [Start, ht]⟩

/-- Witness of C6: on the empty controller a timeout of `client.Do` makes `getUpdates`
fail, and the run that retries on the next tick equals the run without the failure. -/
theorem failed_fetch_changes_nothing_witness :
    (∃ e, getUpdates (CreateController (fun _ => ())) failingGateway sampleUnmarshal =
        .error e) ∧
    tick (CreateController (fun _ => ()))
        (getUpdates (CreateController (fun _ => ())) failingGateway sampleUnmarshal) =
      CreateController (fun _ => ()) ∧
    Start sampleUnmarshal (CreateController (fun _ => ()))
        [.ticker failingGateway, .ticker answeringGateway] =
      Start sampleUnmarshal (CreateController (fun _ => ())) [.ticker answeringGateway] :=
  ⟨⟨"context deadline exceeded", rfl⟩,
    failed_fetch_changes_nothing sampleUnmarshal (CreateController (fun _ => ()))
      failingGateway [.ticker answeringGateway] ⟨"context deadline exceeded", rfl⟩⟩

/-- The run of the witness is not an idle one: the tick after the failed fetch delivers
both items to the queue of chat 10 and moves the cursor to 6. -/
theorem retry_after_failure_example :
    (queueOf 10 (Start sampleUnmarshal (CreateController (fun _ => ()))
        [.ticker failingGateway, .ticker answeringGateway])).map update.ID = [5, 6] ∧
    (Start sampleUnmarshal (CreateController (fun _ => ()))
        [.ticker failingGateway, .ticker answeringGateway]).lastUpdateID = 6 := by
  constructor <;> rfl


/-! ## Order of handling along a schedule -/

theorem handledOf_append_queueOf {σ : Type} (k : ChatID) (c : Controller σ) :
    handledOf k c ++ queueOf k c = ((lookupPipe k c.pipes).map passedThrough).getD [] := by
  unfold handledOf callsOf queueOf
  cases lookupPipe k c.pipes <;> simp [passedThrough]

theorem passedThrough_trySend {σ : Type} (p : chatPipe σ) :
    passedThrough (trySend p) = passedThrough p := by
  unfold trySend; split <;> rfl

theorem passedThrough_routinePark {σ : Type} (b : Bool) (p : chatPipe σ) :
    passedThrough (routinePark b p) = passedThrough p := by
  unfold routinePark; split <;> rfl

theorem passedThrough_routineRecvClosed {σ : Type} (p : chatPipe σ) :
    passedThrough (routineRecvClosed p) = passedThrough p := by
  unfold routineRecvClosed; split <;> rfl

theorem passedThrough_routineExit {σ : Type} (b : Bool) (p : chatPipe σ) :
    passedThrough (routineExit b p) = passedThrough p := by
  unfold routineExit; split <;> rfl

theorem passedThrough_routineDrain {σ : Type} (p : chatPipe σ) :
    passedThrough (routineDrain p) = passedThrough p := by
  unfold routineDrain
  split
  · simp [passedThrough, drainCycle_eq, Function.comp_def]
  · rfl

theorem lookupPipe_map_close {σ : Type} (k : ChatID) (l : List (ChatID × chatPipe σ)) :
    lookupPipe k (l.map (fun kp => (kp.1, { kp.2 with hasDataClosed := true }))) =
      (lookupPipe k l).map (fun p => { p with hasDataClosed := true }) := by
  induction l with
  | nil => rfl
  | cons kp rest ih =>
    obtain ⟨k₀, p⟩ := kp
    by_cases h : k₀ = k <;> simp [lookupPipe, h, ih]

/-- A mutation of one pipe that keeps `passedThrough` keeps it for every key. -/
theorem passedThrough_modifyPipe {σ : Type} (k k' : ChatID) (g : chatPipe σ → chatPipe σ)
    (hg : ∀ p, passedThrough (g p) = passedThrough p) (l : List (ChatID × chatPipe σ)) :
    (lookupPipe k (modifyPipe k' g l)).map passedThrough =
      (lookupPipe k l).map passedThrough := by
  rw [lookupPipe_modifyPipe]
  split
  · cases lookupPipe k l <;> simp [hg]
  · rfl

/-- One action adds to what passed through the pipe of `k` at most the update the
Poller was offered in that action, and only if it belongs to `k`. -/
theorem step_passedThrough {σ : Type} (k : ChatID) (c : Controller σ) (e : Ev) :
    ∃ d, handledOf k (step c e) ++ queueOf k (step c e) =
        (handledOf k c ++ queueOf k c) ++ d ∧
      d.Sublist ((offered [e]).filter (fun u => u.Message.Chat.ID = k)) := by
  simp only [handledOf_append_queueOf]
  cases e with
  | enqueue u =>
    by_cases hr : c.startReturned = true
    · exact ⟨[], by simp [step, hr], List.nil_sublist _⟩
    · by_cases hk : u.Message.Chat.ID = k
      · refine ⟨[u], ?_, by simp [offered, hk]⟩
        rw [show step c (.enqueue u) = enqueue c u from by simp [step, hr]]
        rw [lookupPipe_enqueue, if_pos hk]
        cases lookupPipe k c.pipes <;> simp [passedThrough, appendLocked, newPipe]
      · refine ⟨[], ?_, List.nil_sublist _⟩
        rw [show step c (.enqueue u) = enqueue c u from by simp [step, hr]]
        rw [lookupPipe_enqueue, if_neg hk, List.append_nil]
  | signal k' =>
    refine ⟨[], ?_, List.nil_sublist _⟩
    by_cases hr : c.startReturned = true
    · simp [step, hr]
    · rw [show step c (.signal k') = signal c k' from by simp [step, hr]]
      simp only [signal, List.append_nil]
      rw [passedThrough_modifyPipe k k' trySend passedThrough_trySend]
  | cancel => exact ⟨[], by simp [step], List.nil_sublist _⟩
  | shutdown =>
    refine ⟨[], ?_, List.nil_sublist _⟩
    by_cases hr : c.ctxDone = true ∧ c.startReturned = false
    · rw [show step c .shutdown = shutdown c from by simp [step, hr]]
      simp only [shutdown, lookupPipe_map_close, List.append_nil]
      cases lookupPipe k c.pipes <;> simp [passedThrough]
    · simp [step, hr]
  | park k' =>
    refine ⟨[], ?_, List.nil_sublist _⟩
    simp only [step, List.append_nil]
    rw [passedThrough_modifyPipe k k' _ (passedThrough_routinePark _)]
  | recvClosed k' =>
    refine ⟨[], ?_, List.nil_sublist _⟩
    simp only [step, List.append_nil]
    rw [passedThrough_modifyPipe k k' _ passedThrough_routineRecvClosed]
  | drain k' =>
    refine ⟨[], ?_, List.nil_sublist _⟩
    simp only [step, List.append_nil]
    rw [passedThrough_modifyPipe k k' _ passedThrough_routineDrain]
  | exit k' =>
    refine ⟨[], ?_, List.nil_sublist _⟩
    simp only [step, List.append_nil]
    rw [passedThrough_modifyPipe k k' _ (passedThrough_routineExit _)]

theorem offered_cons (e : Ev) (rest : List Ev) : offered (e :: rest) = offered [e] ++ offered rest := by
  cases e <;> simp [offered]

/-- Along a schedule, what passed through the pipe of `k` grows by a subsequence of the
updates of `k` the Poller was offered, in the order of the offers. -/
theorem run_passedThrough {σ : Type} (k : ChatID) (evs : List Ev) (c : Controller σ) :
    ∃ d, handledOf k (run c evs) ++ queueOf k (run c evs) =
        (handledOf k c ++ queueOf k c) ++ d ∧
      d.Sublist ((offered evs).filter (fun u => u.Message.Chat.ID = k)) := by
  induction evs generalizing c with
  | nil => exact ⟨[], by simp [run], List.nil_sublist _⟩
  | cons e rest ih =>
    obtain ⟨d₁, h₁, s₁⟩ := step_passedThrough k c e
    obtain ⟨d₂, h₂, s₂⟩ := ih (step c e)
    refine ⟨d₁ ++ d₂, ?_, ?_⟩
    · show handledOf k (run (step c e) rest) ++ queueOf k (run (step c e) rest) = _
      rw [h₂, h₁, List.append_assoc]
    · rw [offered_cons, List.filter_append]
      exact List.Sublist.append s₁ s₂


theorem processUpdate_startReturned {σ : Type} (c : Controller σ) (u : update) :
    (processUpdate c u).startReturned = c.startReturned := by
  show (ensurePipe (advanceCursor c u) u.Message.Chat).startReturned = _
  unfold ensurePipe advanceCursor
  split <;> split <;> rfl

/-- While `Start` runs, a tick is the schedule of its Poller actions. -/
theorem processBatch_eq_run {σ : Type} (batch : List update) (c : Controller σ)
    (h : c.startReturned = false) : processBatch c batch = run c (pollEvents batch) := by
  induction batch generalizing c with
  | nil => rfl
  | cons u rest ih =>
    show processBatch (processUpdate c u) rest = _
    rw [ih _ (by rw [processUpdate_startReturned, h])]
    have he : (enqueue c u).startReturned = false := by
      have := processUpdate_startReturned c u
      rw [h] at this
      exact this
    simp [pollEvents, run, step, h, he, processUpdate]

/-- C4, as stated, fails: when a later fetch returns a smaller id, the handler of the
conversation is called on update 7 and then on update 5. -/
theorem handled_ids_can_decrease :
    (handledOf 10 (run (CreateController (fun _ => ())) outOfOrderSchedule)).map update.ID =
        [7, 5] ∧
    ¬ (handledOf 10 (run (CreateController (fun _ => ())) outOfOrderSchedule)).Pairwise
        (fun a b => a.ID ≤ b.ID) := by
  have h : handledOf 10 (run (CreateController (fun _ => ())) outOfOrderSchedule) =
      [sampleUpdate 7 10, sampleUpdate 5 10] := rfl
  rw [h]
  constructor
  · rfl
  · simp [sampleUpdate]

/-- While `Start` runs, an action other than its cancellation branch adds to what passed
through the pipe of `k` exactly the update the Poller is offered in that action, if it
belongs to `k`; and `Start` is still running afterwards. -/
theorem step_passedThrough_running {σ : Type} (k : ChatID) (c : Controller σ) (e : Ev)
    (hr : c.startReturned = false) (he : e ≠ Ev.shutdown) :
    handledOf k (step c e) ++ queueOf k (step c e) =
        (handledOf k c ++ queueOf k c) ++
          (offered [e]).filter (fun u => u.Message.Chat.ID = k) ∧
    (step c e).startReturned = false := by
  simp only [handledOf_append_queueOf]
  have hen : ∀ u, (enqueue c u).startReturned = false := by
    intro u
    have := processUpdate_startReturned c u
    rw [hr] at this
    exact this
  cases e with
  | enqueue u =>
    rw [show step c (.enqueue u) = enqueue c u from by simp [step, hr]]
    refine ⟨?_, hen u⟩
    by_cases hk : u.Message.Chat.ID = k
    · rw [lookupPipe_enqueue, if_pos hk]
      cases lookupPipe k c.pipes <;> simp [passedThrough, appendLocked, newPipe, offered, hk]
    · rw [lookupPipe_enqueue, if_neg hk]
      simp [offered, hk]
  | signal k' =>
    rw [show step c (.signal k') = signal c k' from by simp [step, hr]]
    refine ⟨?_, hr⟩
    simp only [signal, offered, List.filter_nil, List.append_nil]
    rw [passedThrough_modifyPipe k k' trySend passedThrough_trySend]
  | cancel => exact ⟨by simp [step, offered], hr⟩
  | shutdown => exact absurd rfl he
  | park k' =>
    refine ⟨?_, hr⟩
    simp only [step, offered, List.filter_nil, List.append_nil]
    rw [passedThrough_modifyPipe k k' _ (passedThrough_routinePark _)]
  | recvClosed k' =>
    refine ⟨?_, hr⟩
    simp only [step, offered, List.filter_nil, List.append_nil]
    rw [passedThrough_modifyPipe k k' _ passedThrough_routineRecvClosed]
  | drain k' =>
    refine ⟨?_, hr⟩
    simp only [step, offered, List.filter_nil, List.append_nil]
    rw [passedThrough_modifyPipe k k' _ passedThrough_routineDrain]
  | exit k' =>
    refine ⟨?_, hr⟩
    simp only [step, offered, List.filter_nil, List.append_nil]
    rw [passedThrough_modifyPipe k k' _ (passedThrough_routineExit _)]

/-- While `Start` runs, what passed through the pipe of `k` grows along a schedule by
exactly the updates of `k` the Poller is offered, in the order of the offers. -/
theorem run_passedThrough_running {σ : Type} (k : ChatID) (evs : List Ev) (c : Controller σ)
    (hr : c.startReturned = false) (hs : Ev.shutdown ∉ evs) :
    handledOf k (run c evs) ++ queueOf k (run c evs) =
      (handledOf k c ++ queueOf k c) ++
        (offered evs).filter (fun u => u.Message.Chat.ID = k) := by
  induction evs generalizing c with
  | nil => simp [run, offered]
  | cons e rest ih =>
    have he : e ≠ Ev.shutdown := fun h => hs (by rw [h]; exact List.mem_cons_self _ _)
    obtain ⟨h₁, hr₁⟩ := step_passedThrough_running k c e hr he
    have h₂ := ih (step c e) hr₁ (fun h => hs (List.mem_cons_of_mem _ h))
    show handledOf k (run (step c e) rest) ++ queueOf k (run (step c e) rest) = _
    rw [h₂, h₁, List.append_assoc, ← List.filter_append, ← offered_cons]

theorem offered_pollEvents (batch : List update) : offered (pollEvents batch) = batch := by
  induction batch with
  | nil => rfl
  | cons u rest ih =>
    show offered (Ev.enqueue u :: Ev.signal u.Message.Chat.ID :: pollEvents rest) = _
    simp [offered, ih]

theorem offered_filter_isPoller (evs : List Ev) :
    offered (evs.filter Ev.isPoller) = offered evs := by
  induction evs with
  | nil => rfl
  | cons e rest ih => cases e <;> simp [List.filter_cons, Ev.isPoller, offered, ih]

theorem shutdown_not_mem_pollEvents (batch : List update) : Ev.shutdown ∉ pollEvents batch := by
  simp [pollEvents]

/-- A schedule whose Poller actions are those of one tick offers the batch of the tick
and does not contain the cancellation branch of `Start`. -/
theorem schedule_of_tick {evs : List Ev} {batch : List update}
    (h : evs.filter Ev.isPoller = pollEvents batch) :
    offered evs = batch ∧ Ev.shutdown ∉ evs := by
  constructor
  · rw [← offered_filter_isPoller, h, offered_pollEvents]
  · intro hm
    have : Ev.shutdown ∈ evs.filter Ev.isPoller := List.mem_filter.mpr ⟨hm, rfl⟩
    rw [h] at this
    exact shutdown_not_mem_pollEvents batch this

/-- C2, as stated, fails: on the empty registry, in the tick on the batch `[5, 6, 7]` of
chat 10 during which the worker of chat 10 runs a drain cycle, the queue of chat 10
after the tick is `[7]`, not the previous queue followed by `[5, 6, 7]`; the items 5 and
6 were handled meanwhile. -/
theorem queue_after_tick_can_be_shorter :
    interleavedTick.filter Ev.isPoller =
        pollEvents [sampleUpdate 5 10, sampleUpdate 6 10, sampleUpdate 7 10] ∧
    (queueOf 10 (run (CreateController (fun _ => ())) interleavedTick)).map update.ID = [7] ∧
    (handledOf 10 (run (CreateController (fun _ => ())) interleavedTick)).map update.ID =
        [5, 6] ∧
    (queueOf 10 (CreateController (fun _ => ())) ++
        [sampleUpdate 5 10, sampleUpdate 6 10, sampleUpdate 7 10].filter
          (fun u => u.Message.Chat.ID = 10)).map update.ID = [5, 6, 7] ∧
    queueOf 10 (run (CreateController (fun _ => ())) interleavedTick) ≠
      queueOf 10 (CreateController (fun _ => ())) ++
        [sampleUpdate 5 10, sampleUpdate 6 10, sampleUpdate 7 10].filter
          (fun u => u.Message.Chat.ID = 10) := by
  refine ⟨rfl, rfl, rfl, rfl, ?_⟩
  intro h
  have := congrArg List.length h
  revert this
  decide

/-- C2, amended: while `Start` runs, for every registry state, every fetched batch and
every interleaving of the Poller's actions of the tick with actions of the workers (and
the cancellation of the context), after the tick the items handled so far for a
conversation key followed by its queue are what they were before the tick followed by
exactly the batch items whose `Message.Chat.ID` is that key, in the order of the batch.
On the schedule of the tick alone, with no action of a worker, nothing more is handled
and the queue itself is the previous queue followed by these items. -/
theorem tick_passes_batch_in_fetch_order {σ : Type} (c : Controller σ) (batch : List update)
    (evs : List Ev) (k : ChatID) (hrun : c.startReturned = false)
    (hev : evs.filter Ev.isPoller = pollEvents batch) :
    handledOf k (run c evs) ++ queueOf k (run c evs) =
        (handledOf k c ++ queueOf k c) ++ batch.filter (fun u => u.Message.Chat.ID = k) ∧
    tick c (.ok batch) = run c (pollEvents batch) ∧
    queueOf k (tick c (.ok batch)) =
        queueOf k c ++ batch.filter (fun u => u.Message.Chat.ID = k) ∧
    handledOf k (tick c (.ok batch)) = handledOf k c := by
  obtain ⟨hoff, hs⟩ := schedule_of_tick hev
  have hq : queueOf k (tick c (.ok batch)) =
      queueOf k c ++ batch.filter (fun u => u.Message.Chat.ID = k) :=
    queueOf_processBatch k batch c
  have ht : tick c (.ok batch) = run c (pollEvents batch) := processBatch_eq_run batch c hrun
  refine ⟨?_, ht, hq, ?_⟩
  · rw [run_passedThrough_running k evs c hrun hs, hoff]
  · have h := run_passedThrough_running k (pollEvents batch) c hrun
      (shutdown_not_mem_pollEvents batch)
    rw [← ht, offered_pollEvents, hq, List.append_assoc] at h
    exact List.append_cancel_right h

/-- Witness of C2: on the empty registry and the interleaved tick on `[5, 6, 7]` of chat
10, handled followed by queued is `[5, 6, 7]`. -/
theorem tick_passes_batch_in_fetch_order_witness :
    (CreateController (fun _ => ())).startReturned = false ∧
    interleavedTick.filter Ev.isPoller =
        pollEvents [sampleUpdate 5 10, sampleUpdate 6 10, sampleUpdate 7 10] ∧
    (handledOf 10 (run (CreateController (fun _ => ())) interleavedTick) ++
        queueOf 10 (run (CreateController (fun _ => ())) interleavedTick)).map update.ID =
      [5, 6, 7] ∧
    handledOf 10 (run (CreateController (fun _ => ())) interleavedTick) ++
        queueOf 10 (run (CreateController (fun _ => ())) interleavedTick) =
      (handledOf 10 (CreateController (fun _ => ())) ++
          queueOf 10 (CreateController (fun _ => ()))) ++
        [sampleUpdate 5 10, sampleUpdate 6 10, sampleUpdate 7 10].filter
          (fun u => u.Message.Chat.ID = 10) :=
  ⟨rfl, rfl, rfl,
    (tick_passes_batch_in_fetch_order (CreateController (fun _ => ()))
      [sampleUpdate 5 10, sampleUpdate 6 10, sampleUpdate 7 10] interleavedTick 10 rfl rfl).1⟩

/-- C4, amended: along every schedule from `CreateController` on which `Start` has not
taken its cancellation branch, the updates the handler of a conversation was called on,
followed by those still queued, are exactly that conversation's updates in the order the
Poller was offered them (fetch order): none is dropped, duplicated or reordered.  So
the handler is called on a prefix of them in fetch order, and it sees non-decreasing
update ids whenever the gateway returned that conversation's items with non-decreasing
ids.  On any continuation of the schedule the handled updates stay in the order of the
offers. -/
theorem handled_in_fetch_order {σ : Type} (f : Chat → σ) (evs later : List Ev) (k : ChatID)
    (hs : Ev.shutdown ∉ evs) :
    handledOf k (run (CreateController f) evs) ++ queueOf k (run (CreateController f) evs) =
        (offered evs).filter (fun u => u.Message.Chat.ID = k) ∧
    handledOf k (run (CreateController f) evs) <+:
        (offered evs).filter (fun u => u.Message.Chat.ID = k) ∧
    (((offered evs).filter (fun u => u.Message.Chat.ID = k)).Pairwise
        (fun a b => a.ID ≤ b.ID) →
      (handledOf k (run (CreateController f) evs)).Pairwise (fun a b => a.ID ≤ b.ID)) ∧
    (handledOf k (run (CreateController f) (evs ++ later)) ++
        queueOf k (run (CreateController f) (evs ++ later))).Sublist
      ((offered (evs ++ later)).filter (fun u => u.Message.Chat.ID = k)) := by
  have heq := run_passedThrough_running k evs (CreateController f) rfl hs
  have h0 : handledOf k (CreateController f) ++ queueOf k (CreateController f) = [] := rfl
  rw [h0, List.nil_append] at heq
  refine ⟨heq, ⟨_, heq⟩, fun hp => ?_, ?_⟩
  · rw [← heq] at hp
    exact (List.pairwise_append.mp hp).1
  · obtain ⟨d, hd, hsub⟩ := run_passedThrough k (evs ++ later) (CreateController f)
    rw [h0, List.nil_append] at hd
    rw [hd]
    exact hsub

/-- Witness of C4: on the three ticks of `mixedSchedule` chat 10 is offered the ids 5, 6,
8, 6, 4; its handler was called on 5, 6, 8 and the updates 6 and 4 of the last tick are
in its queue. -/
theorem handled_in_fetch_order_witness :
    Ev.shutdown ∉ mixedSchedule ∧
    ((offered mixedSchedule).filter (fun u => u.Message.Chat.ID = 10)).map update.ID =
        [5, 6, 8, 6, 4] ∧
    (handledOf 10 (run (CreateController (fun _ => ())) mixedSchedule)).map update.ID =
        [5, 6, 8] ∧
    (queueOf 10 (run (CreateController (fun _ => ())) mixedSchedule)).map update.ID =
        [6, 4] ∧
    handledOf 10 (run (CreateController (fun _ => ())) mixedSchedule) ++
        queueOf 10 (run (CreateController (fun _ => ())) mixedSchedule) =
      (offered mixedSchedule).filter (fun u => u.Message.Chat.ID = 10) := by
  have hs : Ev.shutdown ∉ mixedSchedule := by simp [mixedSchedule, pollEvents]
  exact ⟨hs, rfl, rfl, rfl,
    (handled_in_fetch_order (fun _ => ()) mixedSchedule [] 10 hs).1⟩

/-! ## The wake signal -/

/-- C10 fails on the code: after the schedule above the update is in the queue of chat
10, nothing was handled, the worker is blocked in its `select`, the context is not
cancelled and the channel (unbuffered, not closed) holds no wake: no action of the worker
is enabled, and the update waits until the Poller signals the pipe for a later item. -/
theorem first_update_wake_is_lost :
    (queueOf 10 (run (CreateController (fun _ => ())) lostWakeSchedule)).map update.ID = [5] ∧
    (handledOf 10 (run (CreateController (fun _ => ())) lostWakeSchedule)).map update.ID = [] ∧
    workerOf 10 (run (CreateController (fun _ => ())) lostWakeSchedule) =
        some WorkerPC.parked ∧
    (run (CreateController (fun _ => ())) lostWakeSchedule).ctxDone = false ∧
    (lookupPipe 10 (run (CreateController (fun _ => ())) lostWakeSchedule).pipes).map
        chatPipe.hasDataClosed = some false ∧
    (∀ e ∈ [Ev.park 10, Ev.recvClosed 10, Ev.drain 10, Ev.exit 10],
      (step (run (CreateController (fun _ => ())) lostWakeSchedule) e).pipes =
        (run (CreateController (fun _ => ())) lostWakeSchedule).pipes) := by
  refine ⟨rfl, rfl, rfl, rfl, rfl, ?_⟩
  intro e he
  simp only [List.mem_cons, List.mem_singleton, List.not_mem_nil, or_false] at he
  rcases he with h | h | h | h <;> subst h <;> rfl

end tclient

namespace yagptclient

/-! ## The response generator -/

/-- C8 fails on the code: when the first `client.Do` returns a nil response with an
error, `GenerateResponse` reads `resp.StatusCode` before it looks at `err` and panics;
it returns neither a text nor the error. -/
theorem generateResponse_panics_on_transport_failure :
    GenerateResponse buildOk sampleUnmarshal transportFailure [] =
      some (.panicked "invalid memory address or nil pointer dereference") := by
  rfl

/-- The same happens when the failure follows a throttled answer (status 429). -/
theorem generateResponse_panics_on_retry_failure :
    GenerateResponse buildOk sampleUnmarshal
        { resp := some { StatusCode := 429, Body := .ok "" }, err := none } [transportFailure] =
      some (.panicked "invalid memory address or nil pointer dereference") := by
  rfl

/-- On a 200 answer the text of the first alternative is returned. -/
theorem generateResponse_returns_first_alternative :
    GenerateResponse buildOk sampleUnmarshal
        { resp := some { StatusCode := 200, Body := .ok "ok" }, err := none } [] =
      some (.returned "reply" none) := by
  rfl

end yagptclient

namespace tclient

/-! ## Cancellation -/

theorem step_startReturned {σ : Type} (c : Controller σ) (e : Ev)
    (h : c.startReturned = true) : (step c e).startReturned = true := by
  cases e <;> simp [step, h]

theorem run_startReturned {σ : Type} (evs : List Ev) (c : Controller σ)
    (h : c.startReturned = true) : (run c evs).startReturned = true := by
  induction evs generalizing c with
  | nil => exact h
  | cons e rest ih => exact ih (step c e) (step_startReturned c e h)

/-- Once `Start` has returned, no action moves the cursor or puts an update into a
pipe. -/
theorem step_after_return {σ : Type} (k : ChatID) (c : Controller σ) (e : Ev)
    (h : c.startReturned = true) :
    (step c e).lastUpdateID = c.lastUpdateID ∧
    handledOf k (step c e) ++ queueOf k (step c e) = handledOf k c ++ queueOf k c := by
  constructor
  · cases e <;> simp [step, h]
  · simp only [handledOf_append_queueOf]
    cases e with
    | enqueue u => simp [step, h]
    | signal k' => simp [step, h]
    | cancel => simp [step]
    | shutdown => simp [step, h]
    | park k' =>
      simp only [step]
      rw [passedThrough_modifyPipe k k' _ (passedThrough_routinePark _)]
    | recvClosed k' =>
      simp only [step]
      rw [passedThrough_modifyPipe k k' _ passedThrough_routineRecvClosed]
    | drain k' =>
      simp only [step]
      rw [passedThrough_modifyPipe k k' _ passedThrough_routineDrain]
    | exit k' =>
      simp only [step]
      rw [passedThrough_modifyPipe k k' _ (passedThrough_routineExit _)]

theorem run_after_return {σ : Type} (k : ChatID) (evs : List Ev) (c : Controller σ)
    (h : c.startReturned = true) :
    (run c evs).lastUpdateID = c.lastUpdateID ∧
    handledOf k (run c evs) ++ queueOf k (run c evs) = handledOf k c ++ queueOf k c := by
  induction evs generalizing c with
  | nil => exact ⟨rfl, rfl⟩
  | cons e rest ih =>
    obtain ⟨h₁, h₂⟩ := step_after_return k c e h
    obtain ⟨h₃, h₄⟩ := ih (step c e) (step_startReturned c e h)
    exact ⟨h₃.trans h₁, h₄.trans h₂⟩

theorem finished_modifyPipe {σ : Type} (k k' : ChatID) (g : chatPipe σ → chatPipe σ)
    (hg : ∀ p, p.worker = WorkerPC.returned →
      (g p).worker = WorkerPC.returned ∧ (g p).calls = p.calls)
    (l : List (ChatID × chatPipe σ)) (calls : List HandlerCall)
    (h : ∃ p, lookupPipe k l = some p ∧ p.worker = WorkerPC.returned ∧ p.calls = calls) :
    ∃ p, lookupPipe k (modifyPipe k' g l) = some p ∧ p.worker = WorkerPC.returned ∧
      p.calls = calls := by
  obtain ⟨p, hp, hw, hc⟩ := h
  rw [lookupPipe_modifyPipe, hp]
  split
  · exact ⟨g p, rfl, (hg p hw).1, (hg p hw).2.trans hc⟩
  · exact ⟨p, rfl, hw, hc⟩

/-- A worker that has returned stays returned and calls no handler, whatever happens. -/
theorem step_finished {σ : Type} (k : ChatID) (c : Controller σ) (e : Ev)
    (calls : List HandlerCall) (h : finished k c calls) : finished k (step c e) calls := by
  unfold finished at h ⊢
  cases e with
  | enqueue u =>
    by_cases hr : c.startReturned = true
    · simpa [step, hr] using h
    · rw [show step c (.enqueue u) = enqueue c u from by simp [step, hr]]
      obtain ⟨p, hp, hw, hc⟩ := h
      rw [lookupPipe_enqueue, hp]
      split
      · exact ⟨_, rfl, hw, hc⟩
      · exact ⟨p, rfl, hw, hc⟩
  | signal k' =>
    by_cases hr : c.startReturned = true
    · simpa [step, hr] using h
    · rw [show step c (.signal k') = signal c k' from by simp [step, hr]]
      refine finished_modifyPipe k k' trySend ?_ _ calls h
      intro p hw
      simp [trySend, hw]
  | cancel => simpa [step] using h
  | shutdown =>
    by_cases hr : c.ctxDone = true ∧ c.startReturned = false
    · rw [show step c .shutdown = shutdown c from by simp [step, hr]]
      obtain ⟨p, hp, hw, hc⟩ := h
      simp only [shutdown, lookupPipe_map_close, hp, Option.map_some']
      exact ⟨_, rfl, hw, hc⟩
    · have : step c .shutdown = c := by simp only [step, hr, if_false]
      rw [this]
      exact h
  | park k' =>
    refine finished_modifyPipe k k' _ ?_ _ calls h
    intro p hw
    simp [routinePark, hw]
  | recvClosed k' =>
    refine finished_modifyPipe k k' _ ?_ _ calls h
    intro p hw
    simp [routineRecvClosed, hw]
  | drain k' =>
    refine finished_modifyPipe k k' _ ?_ _ calls h
    intro p hw
    simp [routineDrain, hw]
  | exit k' =>
    refine finished_modifyPipe k k' _ ?_ _ calls h
    intro p hw
    simp [routineExit, hw]

theorem run_finished {σ : Type} (k : ChatID) (evs : List Ev) (c : Controller σ)
    (calls : List HandlerCall) (h : finished k c calls) : finished k (run c evs) calls := by
  induction evs generalizing c with
  | nil => exact h
  | cons e rest ih => exact ih (step c e) (step_finished k c e calls h)


theorem workerOf_eq_some {σ : Type} {k : ChatID} {c : Controller σ} {w : WorkerPC}
    (h : workerOf k c = some w) : ∃ p, lookupPipe k c.pipes = some p ∧ p.worker = w := by
  unfold workerOf at h
  cases hp : lookupPipe k c.pipes with
  | none => rw [hp] at h; cases h
  | some p =>
    rw [hp] at h
    exact ⟨p, rfl, by simpa using h⟩

theorem queueOf_handledOf_shutdown {σ : Type} (k : ChatID) (c : Controller σ) :
    queueOf k (shutdown c) = queueOf k c ∧ handledOf k (shutdown c) = handledOf k c := by
  unfold handledOf callsOf queueOf
  simp only [shutdown, lookupPipe_map_close]
  cases lookupPipe k c.pipes <;> simp

/-- C7, as stated, fails: after the cancellation the Poller still accepts an update it
is offered before it takes its cancellation branch, and a worker whose closed wake
channel is ready runs a drain cycle and calls the handler on the queued update. -/
theorem handler_called_after_cancellation :
    (run (CreateController (fun _ => ())) cancelledSchedule).ctxDone = true ∧
    (handledOf 10 (run (CreateController (fun _ => ())) cancelledSchedule)).map update.ID = [] ∧
    (handledOf 10 (run (CreateController (fun _ => ()))
        (cancelledSchedule ++ [Ev.shutdown, Ev.recvClosed 10, Ev.drain 10]))).map update.ID =
      [5] ∧
    (queueOf 10 (run (CreateController (fun _ => ()))
        (cancelledSchedule ++ [Ev.enqueue (sampleUpdate 6 10)]))).map update.ID = [5, 6] := by
  refine ⟨rfl, rfl, rfl, rfl⟩

/-- C7, amended: when `Start` takes its cancellation branch it closes the wake channel of
every registered pipe and returns without touching cursor, queues or handler logs, and
whatever the `select` would offer next is not processed; from then on no action moves
the cursor or puts an update into a pipe.  A worker at its `select` that takes its
cancellation branch returns with its queue as it is, and from then on no handler is
called for its conversation.  (A worker that takes the wake branch instead still runs
a drain cycle.) -/
theorem cancellation_branches {σ : Type} (unmarshal : String → Except String (List update))
    (c : Controller σ) (rest : List Select) (evs : List Ev) (k : ChatID)
    (hctx : c.ctxDone = true)
    (hw : workerOf k c = some WorkerPC.atSelect ∨ workerOf k c = some WorkerPC.parked) :
    (Start unmarshal c (.ctxDone :: rest) = shutdown c ∧
      (shutdown c).startReturned = true ∧
      (∀ k' p, lookupPipe k' (shutdown c).pipes = some p → p.hasDataClosed = true) ∧
      (shutdown c).lastUpdateID = c.lastUpdateID ∧
      (∀ k', queueOf k' (shutdown c) = queueOf k' c ∧
        handledOf k' (shutdown c) = handledOf k' c)) ∧
    ((run (shutdown c) evs).lastUpdateID = c.lastUpdateID ∧
      (∀ k', handledOf k' (run (shutdown c) evs) ++ queueOf k' (run (shutdown c) evs) =
        handledOf k' c ++ queueOf k' c)) ∧
    (workerOf k (step c (.exit k)) = some WorkerPC.returned ∧
      queueOf k (step c (.exit k)) = queueOf k c ∧
      handledOf k (step c (.exit k)) = handledOf k c ∧
      workerOf k (run (step c (.exit k)) evs) = some WorkerPC.returned ∧
      handledOf k (run (step c (.exit k)) evs) = handledOf k c) := by
  refine ⟨⟨rfl, rfl, ?_, rfl, fun k' => queueOf_handledOf_shutdown k' c⟩, ⟨?_, ?_⟩, ?_⟩
  · intro k' p hp
    simp only [shutdown, lookupPipe_map_close] at hp
    cases hl : lookupPipe k' c.pipes with
    | none => rw [hl] at hp; cases hp
    | some q =>
      rw [hl] at hp
      simp only [Option.map_some', Option.some.injEq] at hp
      rw [← hp]
  · exact (run_after_return k evs (shutdown c) rfl).1
  · intro k'
    rw [(run_after_return k' evs (shutdown c) rfl).2, (queueOf_handledOf_shutdown k' c).1,
      (queueOf_handledOf_shutdown k' c).2]
  · have hex : ∃ p, lookupPipe k c.pipes = some p ∧
        (p.worker = WorkerPC.atSelect ∨ p.worker = WorkerPC.parked) := by
      rcases hw with h | h
      · obtain ⟨p, hp, hpw⟩ := workerOf_eq_some h
        exact ⟨p, hp, Or.inl hpw⟩
      · obtain ⟨p, hp, hpw⟩ := workerOf_eq_some h
        exact ⟨p, hp, Or.inr hpw⟩
    obtain ⟨p, hp, hpw⟩ := hex
    have hl : lookupPipe k (step c (.exit k)).pipes =
        some { p with worker := WorkerPC.returned } := by
      simp only [step, lookupPipe_modifyPipe, if_true, hp, Option.map_some', routineExit, hctx,
        hpw, and_self]
    have hfin : finished k (step c (.exit k)) (callsOf k c) :=
      ⟨_, hl, rfl, by simp [callsOf, hp]⟩
    obtain ⟨q, hq, hqw, hqc⟩ := run_finished k evs _ _ hfin
    refine ⟨?_, ?_, ?_, ?_, ?_⟩
    · simp [workerOf, hl]
    · simp [queueOf, hl, hp]
    · simp [handledOf, callsOf, hl, hp]
    · simp [workerOf, hq, hqw]
    · simp only [handledOf]
      rw [show callsOf k (run (step c (.exit k)) evs) = callsOf k c from by
        simp only [callsOf, hq, hqc, hp]]

/-- Witness of C7: with update 5 queued for chat 10 and the context cancelled, the
worker takes its cancellation branch; the update stays in the queue and no later action
makes the handler run. -/
theorem cancellation_branches_witness :
    (run (CreateController (fun _ => ())) cancelledSchedule).ctxDone = true ∧
    workerOf 10 (run (CreateController (fun _ => ())) cancelledSchedule) =
      some WorkerPC.atSelect ∧
    (queueOf 10 (step (run (CreateController (fun _ => ())) cancelledSchedule)
      (.exit 10))).map update.ID = [5] ∧
    handledOf 10 (run (step (run (CreateController (fun _ => ())) cancelledSchedule) (.exit 10))
        [Ev.shutdown, Ev.recvClosed 10, Ev.drain 10]) =
      handledOf 10 (run (CreateController (fun _ => ())) cancelledSchedule) :=
  ⟨rfl, rfl, rfl,
    (cancellation_branches sampleUnmarshal
      (run (CreateController (fun _ => ())) cancelledSchedule) []
      [Ev.shutdown, Ev.recvClosed 10, Ev.drain 10] 10 rfl (Or.inl rfl)).2.2.2.2.2.2⟩

end tclient

